import Mathlib

/-!
Verification of the turtl core-rs sync/key-resolution subsystem.

Shallow embedding of:
  * `src/sync/outgoing.rs`        (generic Outgoing Syncer, `SyncOutgoing::run_sync`)
  * `src/sync/files/outgoing.rs`  (File Outgoing Syncer: `get_next_outgoing_file_sync`,
                                   `upload_file`, `run_sync`)
  * `src/turtl.rs`                (`Turtl::find_model_key`, the key resolver)

Collaborators whose code is not part of the listing (storage `SyncRecord::next`,
the Keychain's `find_entry`/`find_all_entries`, the crypto `decrypt_key`) are
modelled from the specification and marked as such in their doc comments.
Effectful collaborator calls are made explicit: each syncer operation takes an
environment record describing the collaborator results and returns, besides its
Rust return value, a trace of the collaborator events it performed, in order.
-/

/-- The error type (`TError` in `src/error.rs`, collaborators' errors folded in).
Only the constructors the embedded code distinguishes are modelled. -/
inductive TError where
  | MissingField : String → TError
  | Msg : String → TError
  | NotFound : String → TError
  | Io : String → TError
deriving DecidableEq, Repr

/-- `TResult<T>` from the source: `Result<T, TError>`. -/
abbrev TResult (α : Type) := Except TError α

deriving instance DecidableEq for Except

/-- The display form of an error, as `sync.set_error(&e)` records it on the
record (the `Display` impl for `TError`). -/
def errText : TError → String
  | .MissingField s => "missing field: " ++ s
  | .Msg s => s
  | .NotFound s => "not found: " ++ s
  | .Io s => "io error: " ++ s

/- ------------------------------------------------------------------ -/
/- Generic outgoing syncer: `src/sync/outgoing.rs`                     -/
/- ------------------------------------------------------------------ -/

/-- A sync record as read by the generic outgoing syncer
(`SyncOutgoing::run_sync` deserializes the `sync_outgoing` table rows and uses
the `id`, `type_` and `action` fields). -/
structure SyncRecordG where
  id : Nat
  type_ : String
  action : String
deriving DecidableEq, Repr

/-- The observable outcome of one `SyncOutgoing::run_sync` tick:
`applied` is the list of records for which a remote API call was performed (in
the order performed); `syncs`/`file_syncs` are the two partitions the function
builds from the sorted batch. The source builds both vectors, performs no API
call, and returns `Ok(())`, dropping the partitions. -/
structure RunSyncResult where
  applied : List SyncRecordG
  syncs : List SyncRecordG
  file_syncs : List SyncRecordG
deriving DecidableEq, Repr

/-- `SyncOutgoing::run_sync` (src/sync/outgoing.rs:62-82): read all pending
records, return early when none, sort by ascending id, partition into file
records (`type_ == "file" && action == "add"`) and generic records, and return
`Ok(())`. No record is applied to the remote API anywhere in the function. -/
def SyncOutgoing.run_sync (records : List SyncRecordG) : TResult RunSyncResult :=
  if records.length = 0 then .ok ⟨[], [], []⟩
  else
    let sorted := records.mergeSort (fun a b => a.id ≤ b.id)
    let file_syncs := sorted.filter (fun r => r.type_ = "file" && r.action = "add")
    let syncs := sorted.filter (fun r => !(r.type_ = "file" && r.action = "add"))
    .ok ⟨[], syncs, file_syncs⟩

/- ------------------------------------------------------------------ -/
/- File outgoing syncer: `src/sync/files/outgoing.rs`                  -/
/- ------------------------------------------------------------------ -/

/-- `SyncType` (`src/models/sync_record.rs`, not in the listing; the file
syncer only distinguishes `FileOutgoing` from everything else). -/
inductive SyncType where
  | FileOutgoing
  | NoteSync
  | BoardSync
  | FileIncoming
deriving DecidableEq, Repr

/-- A sync record as used by the file outgoing syncer (`ty`, `frozen`,
`item_id`, `error` are the fields `upload_file`/`get_next_outgoing_file_sync`
touch; `id` is the monotonic queue position). -/
structure SyncRecord where
  id : Nat
  item_id : String
  ty : SyncType
  frozen : Bool
  error : Option String
deriving DecidableEq, Repr

/-- Modelled from the spec: `SyncRecord::next(db)` lives in
`src/models/sync_record.rs`, which is not part of the listing. Per the spec the
sync table is "a durable, strictly ordered log" keyed by monotonic id and
`next` returns "the oldest non-deleted record" of the entire queue: the record
with the minimum id, or none when the table is empty. -/
def SyncRecord.next (db : List SyncRecord) : Option SyncRecord :=
  db.foldl (fun acc r =>
    match acc with
    | none => some r
    | some m => if r.id < m.id then some r else some m) none

/-- `FileSyncOutgoing::get_next_outgoing_file_sync`
(src/sync/files/outgoing.rs:47-66): look only at the head of the whole sync
table; return it only when its type is `FileOutgoing` and it is not frozen;
otherwise return `None`. -/
def get_next_outgoing_file_sync (db : List SyncRecord) : TResult (Option SyncRecord) :=
  match SyncRecord.next db with
  | some x =>
    match x.ty with
    | SyncType.FileOutgoing => if x.frozen then .ok none else .ok (some x)
    | _ => .ok none
  | none => .ok none

/-- The deserialized upload response (`UploadRes` in `upload_file`): the server
may return a list of sync ids created server-side by the upload. -/
structure UploadRes where
  sync_ids : Option (List Int)
deriving DecidableEq, Repr

/-- One collaborator call performed by `upload_file`, with the result the
collaborator returned. Traces record the calls in the order the source makes
them. -/
inductive FileEvent where
  | FindFile (result : TResult String)
  | OpenFile (result : TResult Nat)
  | ApiStart (result : TResult Unit)
  | WriteChunk (requested : Nat) (result : TResult Nat)
  | Flush (result : TResult Unit)
  | ApiEnd (result : TResult UploadRes)
  | IgnoreOnNext (ids : List Int) (result : TResult Unit)
  | DeleteRecord (result : TResult Unit)
  | Notify (note_id : String) (result : TResult Unit)
  | HandleFailed (result : TResult Unit)
deriving DecidableEq, Repr

/-- The collaborator behaviour visible to one `upload_file` call: the shared
`SyncConfig.user_id`, the storage file lookup (`FileData::file_finder`), the
local file (`fs::File::open`, abstracted to the byte count it will yield,
erroring when the open fails), the streaming API (`call_start` /
`stream.write` indexed by chunk number / `flush` / `call_end`), and the results
of `SyncIncoming::ignore_on_next`, `sync.db_delete`,
`messaging::ui_event` and `SyncRecord::handle_failed_sync`. -/
structure FileEnv where
  user_id : Option String
  file_finder : TResult String
  file_open : TResult Nat
  call_start : TResult Unit
  write : Nat → Nat → TResult Nat
  flush : TResult Unit
  call_end : TResult UploadRes
  ignore_result : TResult Unit
  delete_result : TResult Unit
  notify_result : TResult Unit
  handle_failed_result : TResult Unit

/-- The exact error message built on a short write
(src/sync/files/outgoing.rs:110). -/
def shortWriteMsg (read written : Nat) : String :=
  "problem uploading file: grabbed " ++ toString read ++ " bytes, only sent "
    ++ toString written ++ " wtf wtf lol"

/-- The sequence of chunk lengths `file.read(&mut buf[0..4096])` yields for a
local file of `n` bytes read to EOF: `min 4096 n` per iteration until the read
returns 0 (src/sync/files/outgoing.rs:102-106). -/
def chunkSizes (n : Nat) : List Nat :=
  if h : n = 0 then [] else
    (min 4096 n) :: chunkSizes (n - min 4096 n)
decreasing_by
  have h1 : 0 < min 4096 n := by
    have : 0 < n := Nat.pos_of_ne_zero h
    exact lt_min (by norm_num) this
  omega

/-- The chunk-write loop of `upload_file` (src/sync/files/outgoing.rs:103-112):
write each chunk; a write error aborts; a write whose returned count differs
from the requested count aborts with the short-write `TError::Msg`; no further
chunk is written after an abort. Returns the result together with the trace of
`WriteChunk` events. -/
def writeChunks (write : Nat → Nat → TResult Nat) (idx : Nat) :
    List Nat → TResult Unit × List FileEvent
  | [] => (.ok (), [])
  | sz :: rest =>
    match write idx sz with
    | .error e => (.error e, [.WriteChunk sz (.error e)])
    | .ok written =>
      if sz ≠ written then
        (.error (.Msg (shortWriteMsg sz written)), [.WriteChunk sz (.ok written)])
      else
        let r := writeChunks write (idx + 1) rest
        (r.1, .WriteChunk sz (.ok written) :: r.2)

/-- The `upload` closure inside `upload_file`
(src/sync/files/outgoing.rs:90-116): find the file, open it, start the API
call `PUT /notes/{note_id}/attachment`, stream it 4096 bytes at a time, flush,
and finalize the call. Each `?` propagates the collaborator's error. -/
def uploadClosure (env : FileEnv) : TResult UploadRes × List FileEvent :=
  match env.file_finder with
  | .error e => (.error e, [.FindFile (.error e)])
  | .ok path =>
    match env.file_open with
    | .error e => (.error e, [.FindFile (.ok path), .OpenFile (.error e)])
    | .ok n =>
      match env.call_start with
      | .error e => (.error e, [.FindFile (.ok path), .OpenFile (.ok n),
                                .ApiStart (.error e)])
      | .ok _ =>
        let pre : List FileEvent :=
          [.FindFile (.ok path), .OpenFile (.ok n), .ApiStart (.ok ())]
        match writeChunks env.write 0 (chunkSizes n) with
        | (.error e, tr) => (.error e, pre ++ tr)
        | (.ok _, tr) =>
          match env.flush with
          | .error e => (.error e, pre ++ tr ++ [.Flush (.error e)])
          | .ok _ =>
            (env.call_end, pre ++ tr ++ [.Flush (.ok ()), .ApiEnd env.call_end])

/-- `FileSyncOutgoing::upload_file` (src/sync/files/outgoing.rs:70-156).
Returns the `TResult<()>` of the call, the trace of collaborator events, and
the sync record as left by the call (`sync.set_error` is the only mutation).
Control flow from the source: a missing `SyncConfig.user_id` returns a
`MissingField` error before anything else runs; a failed upload records the
error on the record, routes it through `SyncRecord::handle_failed_sync` (whose
own error propagates) and returns `Ok(())`; a successful upload registers any
returned sync ids via `ignore_on_next` (its error is swallowed), deletes the
record (`?`) and emits the `sync:file:uploaded` UI event (`?`). -/
def upload_file (env : FileEnv) (sync : SyncRecord) :
    TResult Unit × List FileEvent × SyncRecord :=
  match env.user_id with
  | none => (.error (.MissingField "SyncConfig.user_id"), [], sync)
  | some _ =>
    match uploadClosure env with
    | (.error e, tr) =>
      let sync' := { sync with error := some (errText e) }
      match env.handle_failed_result with
      | .ok _ => (.ok (), tr ++ [.HandleFailed (.ok ())], sync')
      | .error e2 => (.error e2, tr ++ [.HandleFailed (.error e2)], sync')
    | (.ok res, tr) =>
      let tr1 := tr ++ (match res.sync_ids with
        | some ids => [FileEvent.IgnoreOnNext ids env.ignore_result]
        | none => [])
      match env.delete_result with
      | .error e2 => (.error e2, tr1 ++ [.DeleteRecord (.error e2)], sync)
      | .ok _ =>
        match env.notify_result with
        | .error e2 =>
          (.error e2, tr1 ++ [.DeleteRecord (.ok ()), .Notify sync.item_id (.error e2)],
            sync)
        | .ok _ =>
          (.ok (), tr1 ++ [.DeleteRecord (.ok ()), .Notify sync.item_id (.ok ())],
            sync)

/- ------------------------------------------------------------------ -/
/- Key resolver: `Turtl::find_model_key` (src/turtl.rs:300-372)        -/
/- ------------------------------------------------------------------ -/

/-- A keychain entry: object id → symmetric key, with a type tag
(`KeyRef` over key bytes; keys are byte vectors, modelled as `List Nat`). -/
structure KeychainEntry where
  id : String
  ty : String
  key : List Nat
deriving DecidableEq, Repr

/-- Modelled from the spec: `Keychain::find_entry` lives in
`src/models/keychain.rs`, which is not part of the listing. Per the spec the
keychain is "a mapping of object-id → symmetric key, queryable by id": return
the key of the (first) entry whose id matches. -/
def find_entry (kc : List KeychainEntry) (oid : String) : Option (List Nat) :=
  match kc.find? (fun e => e.id = oid) with
  | some e => some e.key
  | none => none

/-- Modelled from the spec: `Keychain::find_all_entries` lives in
`src/models/keychain.rs`, which is not part of the listing. Per the spec
"multiple entries may exist"; return the keys of all entries whose id matches,
in order. -/
def find_all_entries (kc : List KeychainEntry) (oid : String) : List (List Nat) :=
  (kc.filter (fun e => e.id = oid)).map (fun e => e.key)

/-- An embedded key reference of an encrypted object
(`KeyRef<String>` after `keychain::keyref_from_encrypted`): the referenced
object's id and the object's own key encrypted under that object's key. -/
structure KeyRefS where
  id : String
  ty : String
  k : String
deriving DecidableEq, Repr

/-- The slice of a `Protected` model that `find_model_key` reads and writes:
its id, its currently installed key, and its embedded key-reference list
(`get_keys`, already parsed into `KeyRef`s). -/
structure PModel where
  id : Option String
  key : Option (List Nat)
  keys : Option (List KeyRefS)
deriving DecidableEq, Repr

/-- The resolver's context: the profile keychain, the logged-in user's id and
key when both are present (src/turtl.rs:338-343), and the crypto
collaborator's `protected::decrypt_key` — `some key` on an authenticated
decrypt, `none` on failure. -/
structure Resolver where
  keychain : List KeychainEntry
  user : Option (String × List Nat)
  decrypt : List Nat → String → Option (List Nat)

/-- The inner `found_key` helper (src/turtl.rs:303-308): install the key on
the model and return `Ok(model.key())`. -/
def found_key (model : PModel) (key : List Nat) : TResult (PModel × Option (List Nat)) :=
  let m := { model with key := some key }
  .ok (m, m.key)

/-- The decrypt candidates tried for one embedded key reference
(src/turtl.rs:346-369): first the direct keychain entry for the referenced id,
when present, then every matching entry of the search set. -/
def candidates (R : Resolver) (search : List KeychainEntry) (oid : String) :
    List (List Nat) :=
  (find_entry R.keychain oid).toList ++ find_all_entries search oid

/-- First candidate that decrypts the encrypted key successfully; a failed
decrypt falls through to the next candidate (the `Err(_) => {}` arms of
src/turtl.rs:354-368). -/
def firstDecrypt (decrypt : List Nat → String → Option (List Nat)) (ek : String) :
    List (List Nat) → Option (List Nat)
  | [] => none
  | c :: rest =>
    match decrypt c ek with
    | some key => some key
    | none => firstDecrypt decrypt ek rest

/-- The keyref loop of `find_model_key` (src/turtl.rs:346-371): for each
embedded reference, try its candidates in order; the first successful decrypt
is installed via `found_key` and returned; if no reference yields a key,
return `Ok(None)`. -/
def try_keyrefs (R : Resolver) (search : List KeychainEntry) (model : PModel) :
    List KeyRefS → TResult (PModel × Option (List Nat))
  | [] => .ok (model, none)
  | kr :: rest =>
    match firstDecrypt R.decrypt kr.k (candidates R search kr.id) with
    | some key => found_key model key
    | none => try_keyrefs R search model rest

/-- The search set actually used: the model's `get_key_search` output plus the
user's own key tagged "user" when the user has both an id and a key
(src/turtl.rs:337-343). -/
def searchWithUser (R : Resolver) (search0 : List KeychainEntry) : List KeychainEntry :=
  search0 ++ (match R.user with
    | some (uid, ukey) => [⟨uid, "user", ukey⟩]
    | none => [])

/-- The embedded references the loop iterates: the model's `keys` field (empty
when absent) with empty encrypted keys filtered out (src/turtl.rs:323-335). -/
def filteredKeys (model : PModel) : List KeyRefS :=
  (match model.keys with
    | some x => x
    | none => []).filter (fun x => x.k ≠ "")

/-- The search phase of `find_model_key` (src/turtl.rs:322-371), reached when
the direct keychain lookup did not return: when the model embeds no key
references at all, return `Ok(None)` (src/turtl.rs:330); otherwise walk the
filtered references against the direct keychain and the user-augmented search
set. -/
def find_model_key_rest (R : Resolver) (search0 : List KeychainEntry) (model : PModel) :
    TResult (PModel × Option (List Nat)) :=
  if (match model.keys with
      | some x => x
      | none => ([] : List KeyRefS)).length = 0 then
    .ok (model, none)
  else
    try_keyrefs R (searchWithUser R search0) model (filteredKeys model)

/-- `Turtl::find_model_key` (src/turtl.rs:300-372), given the model's
`get_key_search` output `search0`. A direct keychain hit for the model's own
id (when it has one) wins immediately; a model with no id skips the direct
lookup (src/turtl.rs:315) and proceeds to the search phase. Every path
returns `Ok`. -/
def find_model_key (R : Resolver) (search0 : List KeychainEntry) (model : PModel) :
    TResult (PModel × Option (List Nat)) :=
  match model.id with
  | some mid =>
    match find_entry R.keychain mid with
    | some key => found_key model key
    | none => find_model_key_rest R search0 model
  | none => find_model_key_rest R search0 model

/- ------------------------------------------------------------------ -/
/- Helper lemmas                                                       -/
/- ------------------------------------------------------------------ -/

theorem next_foldl_min (db : List SyncRecord) (m r : SyncRecord)
    (h : db.foldl (fun acc r =>
      match acc with
      | none => some r
      | some m => if r.id < m.id then some r else some m) (some m) = some r) :
    (r = m ∨ r ∈ db) ∧ r.id ≤ m.id ∧ ∀ s ∈ db, r.id ≤ s.id := by
  induction db generalizing m with
  | nil =>
    simp only [List.foldl_nil, Option.some.injEq] at h
    simp [h]
  | cons x xs ih =>
    simp only [List.foldl_cons] at h
    by_cases hlt : x.id < m.id
    · rw [if_pos hlt] at h
      obtain ⟨hmem, hle, hall⟩ := ih x h
      refine ⟨?_, ?_, ?_⟩
      · rcases hmem with hm | hm
        · exact Or.inr (by simp [hm])
        · exact Or.inr (List.mem_cons_of_mem x hm)
      · omega
      · intro s hs
        rcases List.mem_cons.mp hs with hs | hs
        · subst hs; exact hle
        · exact hall s hs
    · rw [if_neg hlt] at h
      obtain ⟨hmem, hle, hall⟩ := ih m h
      refine ⟨?_, hle, ?_⟩
      · rcases hmem with hm | hm
        · exact Or.inl hm
        · exact Or.inr (List.mem_cons_of_mem x hm)
      · intro s hs
        rcases List.mem_cons.mp hs with hs | hs
        · subst hs; omega
        · exact hall s hs

/-- The modelled queue head is a member of the table and carries its minimum
id: no record with a smaller id is present. -/
theorem next_mem_min (db : List SyncRecord) (r : SyncRecord)
    (h : SyncRecord.next db = some r) :
    r ∈ db ∧ ∀ s ∈ db, r.id ≤ s.id := by
  cases db with
  | nil => simp [SyncRecord.next] at h
  | cons x xs =>
    unfold SyncRecord.next at h
    simp only [List.foldl_cons] at h
    obtain ⟨hmem, hle, hall⟩ := next_foldl_min xs x r h
    refine ⟨?_, ?_⟩
    · rcases hmem with hm | hm
      · simp [hm]
      · exact List.mem_cons_of_mem x hm
    · intro s hs
      rcases List.mem_cons.mp hs with hs | hs
      · subst hs; exact hle
      · exact hall s hs

/- ------------------------------------------------------------------ -/
/- C1                                                                  -/
/- ------------------------------------------------------------------ -/

/-- C1: the claim says every record partitioned as "generic" is applied to the
remote API in ascending id order on each tick. `SyncOutgoing::run_sync` sorts
and partitions the batch but applies nothing: on every input the set of
records applied to the remote API is empty, and in particular the batch
holding the single generic record `{id 1, type "note", action "add"}` is
partitioned as generic yet no API call is performed. -/
theorem run_sync_applies_no_generic_record :
    (∀ records : List SyncRecordG, ∃ res, SyncOutgoing.run_sync records = .ok res ∧
        res.applied = []) ∧
    SyncOutgoing.run_sync [⟨1, "note", "add"⟩] =
      .ok ⟨[], [⟨1, "note", "add"⟩], []⟩ := by
  constructor
  · intro records
    unfold SyncOutgoing.run_sync
    split
    · exact ⟨_, rfl, rfl⟩
    · exact ⟨_, rfl, rfl⟩
  · simp [SyncOutgoing.run_sync, List.mergeSort]

/- ------------------------------------------------------------------ -/
/- C2                                                                  -/
/- ------------------------------------------------------------------ -/

/-- C2: `get_next_outgoing_file_sync` returns a record only when the head of
the whole queue (the minimum-id record across all types) is `FileOutgoing` and
not frozen — any returned record is a queue member with no smaller-id record
present; and on an empty queue, a non-file head, or a frozen file head it
returns `Ok(None)`. -/
theorem file_next_head_only (db : List SyncRecord) :
    (∀ r, get_next_outgoing_file_sync db = .ok (some r) →
        r.ty = SyncType.FileOutgoing ∧ r.frozen = false ∧ r ∈ db ∧
        ∀ s ∈ db, r.id ≤ s.id) ∧
    (SyncRecord.next db = none → get_next_outgoing_file_sync db = .ok none) ∧
    (∀ h, SyncRecord.next db = some h →
        h.ty ≠ SyncType.FileOutgoing ∨ h.frozen = true →
        get_next_outgoing_file_sync db = .ok none) := by
  refine ⟨?_, ?_, ?_⟩
  · intro r hr
    unfold get_next_outgoing_file_sync at hr
    split at hr
    case h_2 => simp at hr
    case h_1 x hnext =>
      split at hr
      case h_2 => simp at hr
      case h_1 hty =>
        split at hr
        · simp at hr
        · rename_i hfz
          simp only [Except.ok.injEq, Option.some.injEq] at hr
          subst hr
          obtain ⟨hmem, hmin⟩ := next_mem_min db x hnext
          exact ⟨hty, by simpa using hfz, hmem, hmin⟩
  · intro hnone
    unfold get_next_outgoing_file_sync
    rw [hnone]
  · intro h hnext hbad
    unfold get_next_outgoing_file_sync
    rw [hnext]
    simp only []
    rcases hbad with hty | hfz
    · cases hty2 : h.ty
      · exact absurd hty2 hty
      all_goals simp [hty2]
    · cases hty2 : h.ty
      all_goals simp [hty2, hfz]

/-- C2 witness: on the concrete queue `[file-outgoing id 1, note id 2]` the
syncer dequeues the file record, which is `FileOutgoing`, unfrozen, a queue
member, and of id no larger than either queued record's. -/
theorem file_next_head_only_witness :
    (⟨1, "note-1", SyncType.FileOutgoing, false, none⟩ : SyncRecord).ty =
        SyncType.FileOutgoing ∧
    (⟨1, "note-1", SyncType.FileOutgoing, false, none⟩ : SyncRecord).frozen = false ∧
    (⟨1, "note-1", SyncType.FileOutgoing, false, none⟩ : SyncRecord) ∈
      [(⟨1, "note-1", SyncType.FileOutgoing, false, none⟩ : SyncRecord),
       ⟨2, "note-2", SyncType.NoteSync, false, none⟩] ∧
    (⟨1, "note-1", SyncType.FileOutgoing, false, none⟩ : SyncRecord).id ≤
      (⟨2, "note-2", SyncType.NoteSync, false, none⟩ : SyncRecord).id :=
  have h :=
    (file_next_head_only
        [⟨1, "note-1", SyncType.FileOutgoing, false, none⟩,
         ⟨2, "note-2", SyncType.NoteSync, false, none⟩]).1
      ⟨1, "note-1", SyncType.FileOutgoing, false, none⟩ (by decide)
  ⟨h.1, h.2.1, h.2.2.1,
    h.2.2.2 ⟨2, "note-2", SyncType.NoteSync, false, none⟩ (by decide)⟩

/- Resolver helper lemmas -/

theorem firstDecrypt_none (decrypt : List Nat → String → Option (List Nat))
    (ek : String) (cs : List (List Nat)) (h : ∀ c ∈ cs, decrypt c ek = none) :
    firstDecrypt decrypt ek cs = none := by
  induction cs with
  | nil => rfl
  | cons c rest ih =>
    unfold firstDecrypt
    rw [h c (by simp)]
    exact ih (fun c' hc' => h c' (by simp [hc']))

theorem firstDecrypt_success (decrypt : List Nat → String → Option (List Nat))
    (ek : String) (cpre : List (List Nat)) (c : List Nat) (cpost : List (List Nat))
    (key : List Nat) (hpre : ∀ c' ∈ cpre, decrypt c' ek = none)
    (hc : decrypt c ek = some key) :
    firstDecrypt decrypt ek (cpre ++ c :: cpost) = some key := by
  induction cpre with
  | nil =>
    rw [List.nil_append]
    unfold firstDecrypt
    rw [hc]
  | cons a rest ih =>
    rw [List.cons_append]
    unfold firstDecrypt
    rw [hpre a (by simp)]
    exact ih (fun c' hc' => hpre c' (by simp [hc']))

theorem try_keyrefs_all_fail (R : Resolver) (search : List KeychainEntry)
    (model : PModel) (krs : List KeyRefS)
    (h : ∀ kr ∈ krs, ∀ c ∈ candidates R search kr.id, R.decrypt c kr.k = none) :
    try_keyrefs R search model krs = .ok (model, none) := by
  induction krs with
  | nil => rfl
  | cons kr rest ih =>
    unfold try_keyrefs
    rw [firstDecrypt_none _ _ _ (h kr (by simp))]
    exact ih (fun kr' hkr' c hc => h kr' (by simp [hkr']) c hc)

theorem try_keyrefs_skip (R : Resolver) (search : List KeychainEntry)
    (model : PModel) (pre rest : List KeyRefS)
    (h : ∀ kr ∈ pre, ∀ c ∈ candidates R search kr.id, R.decrypt c kr.k = none) :
    try_keyrefs R search model (pre ++ rest) = try_keyrefs R search model rest := by
  induction pre with
  | nil => rfl
  | cons a as ih =>
    rw [List.cons_append]
    conv_lhs => rw [try_keyrefs]
    rw [firstDecrypt_none _ _ _ (h a (by simp))]
    exact ih (fun kr' hkr' c hc => h kr' (by simp [hkr']) c hc)

theorem try_keyrefs_isOk (R : Resolver) (search : List KeychainEntry)
    (model : PModel) (krs : List KeyRefS) :
    ∃ p, try_keyrefs R search model krs = .ok p := by
  induction krs with
  | nil => exact ⟨_, rfl⟩
  | cons kr rest ih =>
    unfold try_keyrefs
    split
    · exact ⟨_, rfl⟩
    · exact ih

/- ------------------------------------------------------------------ -/
/- C9                                                                  -/
/- ------------------------------------------------------------------ -/

/-- C9: when the model's own id has a direct keychain entry, `find_model_key`
installs exactly that entry's key on the model and returns it. The statement
holds for every search set `search0` and every decrypt function in `R`: the
result does not depend on them, so the function returns before the search set
or any decrypt attempt matters. -/
theorem find_model_key_direct_hit (R : Resolver) (search0 : List KeychainEntry)
    (model : PModel) (mid : String) (key : List Nat)
    (hid : model.id = some mid) (hfind : find_entry R.keychain mid = some key) :
    find_model_key R search0 model =
      .ok ({ model with key := some key }, some key) := by
  obtain ⟨oid, okey, okeys⟩ := model
  replace hid : oid = some mid := hid
  subst hid
  unfold find_model_key
  show (match find_entry R.keychain mid with
        | some key => found_key ⟨some mid, okey, okeys⟩ key
        | none => find_model_key_rest R search0 ⟨some mid, okey, okeys⟩) = _
  rw [hfind]
  rfl

/-- C9 witness: the concrete keychain `[{id "obj1", key [1,2]}]` resolves the
model with id "obj1" to key `[1,2]` directly. -/
theorem find_model_key_direct_hit_witness :
    find_model_key ⟨[⟨"obj1", "note", [1, 2]⟩], none, fun _ _ => none⟩ []
        ⟨some "obj1", none, none⟩ =
      .ok (⟨some "obj1", some [1, 2], none⟩, some [1, 2]) :=
  find_model_key_direct_hit ⟨[⟨"obj1", "note", [1, 2]⟩], none, fun _ _ => none⟩ []
    ⟨some "obj1", none, none⟩ "obj1" [1, 2] rfl rfl

/- ------------------------------------------------------------------ -/
/- C6                                                                  -/
/- ------------------------------------------------------------------ -/

/-- C6 counterexample: the claim says an object with no id of its own makes
resolution fail with a hard error; on the code a model with no id (and no
embedded keys) resolves to `Ok(None)` — a soft empty result, not an error. -/
theorem find_model_key_no_id_counterexample :
    find_model_key ⟨[], none, fun _ _ => none⟩ [] ⟨none, none, none⟩ =
      .ok (⟨none, none, none⟩, none) := rfl

/-- C6 amended: a missing id is not a hard error — the direct keychain lookup
is simply skipped and resolution proceeds with the embedded-key search; every
path of `find_model_key` returns `Ok`, and a model with no id and no embedded
keys yields the soft empty result `Ok(None)`. -/
theorem find_model_key_never_errors (R : Resolver) (search0 : List KeychainEntry)
    (model : PModel) :
    (∃ p, find_model_key R search0 model = .ok p) ∧
    (model.id = none → model.keys = none →
      find_model_key R search0 model = .ok (model, none)) := by
  have hrest : ∃ p, find_model_key_rest R search0 model = .ok p := by
    unfold find_model_key_rest
    split
    · exact ⟨_, rfl⟩
    · exact try_keyrefs_isOk _ _ _ _
  constructor
  · unfold find_model_key
    split
    · split
      · exact ⟨_, rfl⟩
      · exact hrest
    · exact hrest
  · intro hid hkeys
    unfold find_model_key find_model_key_rest
    rw [hid, hkeys]
    rfl

/-- C6 amended witness: at the model with no id and no keys (and a nonempty
keychain) the resolver returns the soft `Ok(None)`, not an error. -/
theorem find_model_key_never_errors_witness :
    find_model_key ⟨[⟨"a", "t", [3]⟩], none, fun _ _ => none⟩ []
        ⟨none, none, none⟩ = .ok (⟨none, none, none⟩, none) :=
  (find_model_key_never_errors ⟨[⟨"a", "t", [3]⟩], none, fun _ _ => none⟩ []
      ⟨none, none, none⟩).2 rfl rfl

/- ------------------------------------------------------------------ -/
/- C3                                                                  -/
/- ------------------------------------------------------------------ -/

theorem filteredKeys_ne_nil_raw (model : PModel) (h : filteredKeys model ≠ []) :
    (match model.keys with
      | some x => x
      | none => ([] : List KeyRefS)).length ≠ 0 := by
  unfold filteredKeys at h
  cases hk : model.keys with
  | none => rw [hk] at h; simp at h
  | some l =>
    rw [hk] at h
    show l.length ≠ 0
    intro hnil
    rw [List.length_eq_zero] at hnil
    subst hnil
    simp at h

/-- C3: for a model whose own id has no direct keychain entry, the resolver
walks the embedded key references in order; for each reference the candidate
keys are the direct keychain entry for the referenced id (when present)
followed by every matching entry of the user-augmented search set. If no
candidate decrypts, the result is the soft `Ok(None)`; if the references split
as `pre ++ kr :: post` with every candidate of `pre` failing and `kr`'s
candidates splitting as `cpre ++ c :: cpost` with `cpre` failing and `c`
decrypting to `key`, then that first successful decrypt is installed on the
model and returned — earlier failed decrypts never block later candidates. -/
theorem find_model_key_indirection (R : Resolver) (search0 : List KeychainEntry)
    (model : PModel) (mid : String)
    (hid : model.id = some mid) (hmiss : find_entry R.keychain mid = none) :
    ((∀ kr ∈ filteredKeys model,
        ∀ c ∈ candidates R (searchWithUser R search0) kr.id,
          R.decrypt c kr.k = none) →
      find_model_key R search0 model = .ok (model, none)) ∧
    (∀ pre kr post cpre c cpost key,
      filteredKeys model = pre ++ kr :: post →
      (∀ kr' ∈ pre, ∀ c' ∈ candidates R (searchWithUser R search0) kr'.id,
        R.decrypt c' kr'.k = none) →
      candidates R (searchWithUser R search0) kr.id = cpre ++ c :: cpost →
      (∀ c' ∈ cpre, R.decrypt c' kr.k = none) →
      R.decrypt c kr.k = some key →
      find_model_key R search0 model =
        .ok ({ model with key := some key }, some key)) := by
  have hentry : find_model_key R search0 model = find_model_key_rest R search0 model := by
    unfold find_model_key
    rw [hid]
    show (match find_entry R.keychain mid with
          | some key => found_key model key
          | none => find_model_key_rest R search0 model) = _
    rw [hmiss]
  constructor
  · intro hall
    rw [hentry]
    unfold find_model_key_rest
    split
    · rfl
    · exact try_keyrefs_all_fail _ _ _ _ hall
  · intro pre kr post cpre c cpost key hsplit hpre hcands hcpre hc
    rw [hentry]
    unfold find_model_key_rest
    split
    · rename_i hlen
      exact absurd hlen (filteredKeys_ne_nil_raw model (by rw [hsplit]; simp))
    · rw [hsplit, try_keyrefs_skip _ _ _ _ _ hpre]
      conv_lhs => rw [try_keyrefs]
      rw [hcands, firstDecrypt_success _ _ _ _ _ _ hcpre hc]
      rfl

/-- C3 witness: note "note1" has no direct entry; its single embedded
reference points at board "boardB". The keychain's direct entry for "boardB"
(key `[1]`) fails to decrypt, but the search-set entry (key `[2]`) succeeds
and yields `[7]`, which is installed and returned — the earlier failed
candidate did not block it. -/
theorem find_model_key_indirection_witness :
    find_model_key
        ⟨[⟨"boardB", "board", [1]⟩], none,
          fun k ek => if k = [2] ∧ ek = "ek1" then some [7] else none⟩
        [⟨"boardB", "board", [2]⟩]
        ⟨some "note1", none, some [⟨"boardB", "b", "ek1"⟩]⟩ =
      .ok (⟨some "note1", some [7], some [⟨"boardB", "b", "ek1"⟩]⟩, some [7]) :=
  (find_model_key_indirection
      ⟨[⟨"boardB", "board", [1]⟩], none,
        fun k ek => if k = [2] ∧ ek = "ek1" then some [7] else none⟩
      [⟨"boardB", "board", [2]⟩]
      ⟨some "note1", none, some [⟨"boardB", "b", "ek1"⟩]⟩
      "note1" rfl rfl).2
    [] ⟨"boardB", "b", "ek1"⟩ [] [[1]] [2] [] [7]
    (by simp [filteredKeys])
    (by intro kr' h; simp at h)
    (by simp [candidates, find_entry, find_all_entries, searchWithUser])
    (by intro c' hc'; simp at hc'; subst hc'; rfl)
    (by rfl)

/- ------------------------------------------------------------------ -/
/- Upload helper lemmas                                                -/
/- ------------------------------------------------------------------ -/

/-- `FileSyncOutgoing::run_sync` (src/sync/files/outgoing.rs:180-186): take
the next outgoing file sync, if any, and upload it; the tick's result is
`upload_file`'s result (`?` propagates), `Ok(())` when there is nothing to do. -/
def FileSyncOutgoing.run_sync (db : List SyncRecord) (env : FileEnv) : TResult Unit :=
  match get_next_outgoing_file_sync db with
  | .error e => .error e
  | .ok none => .ok ()
  | .ok (some sync) => (upload_file env sync).1

theorem chunkSizes_zero : chunkSizes 0 = [] := by
  unfold chunkSizes
  rfl

theorem chunkSizes_length (n : Nat) : (chunkSizes n).length = (n + 4095) / 4096 := by
  induction n using Nat.strong_induction_on with
  | _ n ih =>
    unfold chunkSizes
    split
    · rename_i h
      subst h
      rfl
    · rename_i h
      rw [List.length_cons, ih (n - min 4096 n) (by omega)]
      omega

theorem chunkSizes_bounds (n : Nat) : ∀ sz ∈ chunkSizes n, 0 < sz ∧ sz ≤ 4096 := by
  induction n using Nat.strong_induction_on with
  | _ n ih =>
    unfold chunkSizes
    split
    · simp
    · rename_i h
      intro sz hsz
      rcases List.mem_cons.mp hsz with hh | hh
      · subst hh
        constructor
        · have : 0 < n := Nat.pos_of_ne_zero h
          omega
        · omega
      · exact ih (n - min 4096 n) (by omega) sz hh

theorem writeChunks_all_ok (write : Nat → Nat → TResult Nat)
    (h : ∀ i s, write i s = .ok s) (szs : List Nat) (idx : Nat) :
    writeChunks write idx szs =
      (.ok (), szs.map (fun sz => .WriteChunk sz (.ok sz))) := by
  induction szs generalizing idx with
  | nil => rfl
  | cons sz rest ih =>
    unfold writeChunks
    simp only [h idx sz, ne_eq, not_true_eq_false, if_false, ih (idx + 1),
      List.map_cons]

/-- All events a `writeChunks` run records are chunk writes. -/
theorem writeChunks_events (write : Nat → Nat → TResult Nat) (szs : List Nat)
    (idx : Nat) :
    ∀ ev ∈ (writeChunks write idx szs).2, ∃ sz r, ev = FileEvent.WriteChunk sz r := by
  induction szs generalizing idx with
  | nil => simp [writeChunks]
  | cons sz rest ih =>
    intro ev hev
    unfold writeChunks at hev
    split at hev
    · simp at hev
      exact ⟨_, _, hev⟩
    · split at hev
      · simp at hev
        exact ⟨_, _, hev⟩
      · simp only [List.mem_cons] at hev
        rcases hev with hev | hev
        · exact ⟨_, _, hev⟩
        · exact ih (idx + 1) ev hev

/-- True exactly on the events the `upload` closure itself can record
(file lookup/open, API streaming, chunk writes): the record deletion, the UI
notification, the ignore registration and the failed-sync handling are not
among them. -/
def isStreamEvent : FileEvent → Bool
  | .FindFile _ => true
  | .OpenFile _ => true
  | .ApiStart _ => true
  | .WriteChunk _ _ => true
  | .Flush _ => true
  | .ApiEnd _ => true
  | .IgnoreOnNext _ _ => false
  | .DeleteRecord _ => false
  | .Notify _ _ => false
  | .HandleFailed _ => false

theorem writeChunks_stream (write : Nat → Nat → TResult Nat) (szs : List Nat)
    (idx : Nat) : ((writeChunks write idx szs).2).all isStreamEvent = true := by
  rw [List.all_eq_true]
  intro ev hev
  obtain ⟨sz, r, hr⟩ := writeChunks_events write szs idx ev hev
  subst hr
  rfl

/-- The trace of the `upload` closure only ever records stream events: in
particular it never contains a record deletion, a failed-sync handling, an
ignore registration or a UI notification. -/
theorem uploadClosure_stream (env : FileEnv) :
    ((uploadClosure env).2).all isStreamEvent = true := by
  unfold uploadClosure
  split
  · rfl
  · split
    · rfl
    · split
      · rfl
      · split
        · rename_i n hopen xcs acs hcs xwc e tr heqw
          have hwc := writeChunks_stream env.write (chunkSizes n) 0
          rw [heqw] at hwc
          replace hwc : tr.all isStreamEvent = true := hwc
          simp [List.all_append, hwc, isStreamEvent]
        · split
          · rename_i n hopen xcs acs hcs x1 a tr heqw xf ef heqf
            have hwc := writeChunks_stream env.write (chunkSizes n) 0
            rw [heqw] at hwc
            replace hwc : tr.all isStreamEvent = true := hwc
            simp [List.all_append, hwc, isStreamEvent]
          · rename_i n hopen xcs acs hcs x1 a tr heqw xf u heqf
            have hwc := writeChunks_stream env.write (chunkSizes n) 0
            rw [heqw] at hwc
            replace hwc : tr.all isStreamEvent = true := hwc
            simp [List.all_append, hwc, isStreamEvent]

/-- No record deletion and no failed-sync handling appears in an `upload`
closure trace. -/
theorem uploadClosure_no_delete (env : FileEnv) (tr : List FileEvent)
    (h : (uploadClosure env).2 = tr) :
    (∀ r, FileEvent.DeleteRecord r ∉ tr) ∧
    (∀ r, FileEvent.HandleFailed r ∉ tr) := by
  have hall := uploadClosure_stream env
  rw [h, List.all_eq_true] at hall
  constructor
  · intro r hmem
    have := hall _ hmem
    simp [isStreamEvent] at this
  · intro r hmem
    have := hall _ hmem
    simp [isStreamEvent] at this

/-- When the collaborators all succeed and every chunk write returns its
requested count, the `upload` closure performs exactly the chunk writes of
`chunkSizes n`, in order, framed by the find/open/start and flush/end calls. -/
theorem uploadClosure_success (env : FileEnv) (n : Nat) (path : String)
    (hf : env.file_finder = .ok path) (ho : env.file_open = .ok n)
    (hs : env.call_start = .ok ()) (hw : ∀ i s, env.write i s = .ok s)
    (hfl : env.flush = .ok ()) :
    uploadClosure env =
      (env.call_end,
        [.FindFile (.ok path), .OpenFile (.ok n), .ApiStart (.ok ())] ++
          (chunkSizes n).map (fun sz => .WriteChunk sz (.ok sz)) ++
          [.Flush (.ok ()), .ApiEnd env.call_end]) := by
  unfold uploadClosure
  simp only [hf, ho, hs, writeChunks_all_ok env.write hw (chunkSizes n) 0, hfl]

/- ------------------------------------------------------------------ -/
/- C4                                                                  -/
/- ------------------------------------------------------------------ -/

/-- C4: a local file of `n` bytes is streamed in `ceil(n/4096)` chunks of at
most 4096 bytes each (conjunct 1; with all collaborators succeeding the
`upload` closure's trace records exactly those chunk writes, conjunct 2); a
chunk write whose returned count differs from the requested count fails the
transfer immediately with the short-write error, recording no further chunk
(conjunct 3). -/
theorem upload_streams_in_chunks :
    (∀ n : Nat, (chunkSizes n).length = (n + 4095) / 4096 ∧
        ∀ sz ∈ chunkSizes n, 0 < sz ∧ sz ≤ 4096) ∧
    (∀ (env : FileEnv) (n : Nat) (path : String),
        env.file_finder = .ok path → env.file_open = .ok n →
        env.call_start = .ok () → (∀ i s, env.write i s = .ok s) →
        env.flush = .ok () →
        uploadClosure env =
          (env.call_end,
            [.FindFile (.ok path), .OpenFile (.ok n), .ApiStart (.ok ())] ++
              (chunkSizes n).map (fun sz => .WriteChunk sz (.ok sz)) ++
              [.Flush (.ok ()), .ApiEnd env.call_end])) ∧
    (∀ (write : Nat → Nat → TResult Nat) (idx sz : Nat) (rest : List Nat) (w : Nat),
        write idx sz = .ok w → w ≠ sz →
        writeChunks write idx (sz :: rest) =
          (.error (.Msg (shortWriteMsg sz w)), [.WriteChunk sz (.ok w)])) := by
  refine ⟨?_, ?_, ?_⟩
  · intro n
    exact ⟨chunkSizes_length n, chunkSizes_bounds n⟩
  · intro env n path hf ho hs hw hfl
    exact uploadClosure_success env n path hf ho hs hw hfl
  · intro write idx sz rest w hw hne
    unfold writeChunks
    simp only [hw, ne_eq]
    rw [if_pos (fun hc => hne hc.symm)]

/-- C4 witness: a 1-byte file streams in one chunk
(`ceil(1/4096) = 1`, chunk size 1), and a write that returns 3 of 5 requested
bytes aborts immediately with the short-write error and no further chunk. -/
theorem upload_streams_in_chunks_witness :
    uploadClosure ⟨some "u1", .ok "path1", .ok 1, .ok (), fun _ s => .ok s,
        .ok (), .ok ⟨none⟩, .ok (), .ok (), .ok (), .ok ()⟩ =
      (.ok ⟨none⟩,
        [.FindFile (.ok "path1"), .OpenFile (.ok 1), .ApiStart (.ok ()),
         .WriteChunk 1 (.ok 1), .Flush (.ok ()), .ApiEnd (.ok ⟨none⟩)]) ∧
    writeChunks (fun _ _ => .ok 3) 0 [5, 9] =
      (.error (.Msg (shortWriteMsg 5 3)), [.WriteChunk 5 (.ok 3)]) := by
  constructor
  · have h := upload_streams_in_chunks.2.1
      ⟨some "u1", .ok "path1", .ok 1, .ok (), fun _ s => .ok s,
        .ok (), .ok ⟨none⟩, .ok (), .ok (), .ok (), .ok ()⟩
      1 "path1" rfl rfl rfl (fun _ _ => rfl) rfl
    rw [h]
    simp [chunkSizes]
  · exact upload_streams_in_chunks.2.2 (fun _ _ => .ok 3) 0 5 [9] 3 rfl (by decide)

/- ------------------------------------------------------------------ -/
/- C10                                                                 -/
/- ------------------------------------------------------------------ -/

/-- C10: when `SyncConfig.user_id` is unset, `upload_file` returns the
`MissingField("SyncConfig.user_id")` error with an empty collaborator trace —
no file lookup, no API call, no record deletion, and in particular no
failed-sync handling — and the record is returned unchanged (not marked
failed, not counted toward freezing). -/
theorem upload_file_missing_user_id (env : FileEnv) (sync : SyncRecord)
    (h : env.user_id = none) :
    upload_file env sync = (.error (.MissingField "SyncConfig.user_id"), [], sync) := by
  unfold upload_file
  rw [h]

/-- C10 witness: with all collaborators available but no user id, the call
errors out immediately, calls nothing, and leaves the record untouched. -/
theorem upload_file_missing_user_id_witness :
    upload_file
        ⟨none, .ok "pathX", .ok 3, .ok (), fun _ s => .ok s, .ok (),
          .ok ⟨none⟩, .ok (), .ok (), .ok (), .ok ()⟩
        ⟨7, "noteX", SyncType.FileOutgoing, false, none⟩ =
      (.error (.MissingField "SyncConfig.user_id"), [],
        ⟨7, "noteX", SyncType.FileOutgoing, false, none⟩) :=
  upload_file_missing_user_id
    ⟨none, .ok "pathX", .ok 3, .ok (), fun _ s => .ok s, .ok (),
      .ok ⟨none⟩, .ok (), .ok (), .ok (), .ok ()⟩
    ⟨7, "noteX", SyncType.FileOutgoing, false, none⟩ rfl

/- ------------------------------------------------------------------ -/
/- C8                                                                  -/
/- ------------------------------------------------------------------ -/

/-- C8: when the upload itself fails with error `e` (and the failed-sync
handler succeeds), `upload_file` records `e` on the record, appends exactly
one `HandleFailed` call (the same failed-sync routing generic records use),
never deletes the record (no `DeleteRecord` event exists in the trace), and
returns `Ok(())`, so the syncer tick `run_sync` that called it also returns
`Ok(())` and the polling loop schedules the next tick. -/
theorem upload_file_failure_routed (env : FileEnv) (uid : String)
    (sync : SyncRecord) (e : TError) (tr : List FileEvent)
    (hu : env.user_id = some uid)
    (hup : uploadClosure env = (.error e, tr))
    (hh : env.handle_failed_result = .ok ()) :
    upload_file env sync =
      (.ok (), tr ++ [.HandleFailed (.ok ())],
        { sync with error := some (errText e) }) ∧
    (∀ r, FileEvent.DeleteRecord r ∉ tr ++ [FileEvent.HandleFailed (.ok ())]) ∧
    (∀ db, get_next_outgoing_file_sync db = .ok (some sync) →
      FileSyncOutgoing.run_sync db env = .ok ()) := by
  have hmain : upload_file env sync =
      (.ok (), tr ++ [.HandleFailed (.ok ())],
        { sync with error := some (errText e) }) := by
    unfold upload_file
    rw [hu]
    show (match uploadClosure env with
          | (.error e, tr) => _
          | (.ok res, tr) => _) = _
    rw [hup]
    simp only [hh]
  refine ⟨hmain, ?_, ?_⟩
  · intro r hmem
    rcases List.mem_append.mp hmem with hmem | hmem
    · exact (uploadClosure_no_delete env tr (by rw [hup])).1 r hmem
    · simp at hmem
  · intro db hdb
    unfold FileSyncOutgoing.run_sync
    rw [hdb]
    show (upload_file env sync).1 = .ok ()
    rw [hmain]

/-- C8 witness: with the local file missing (`file_finder` errors), the upload
records the error on the record, routes it through the failed-sync handler,
deletes nothing, and the tick over the queue `[that record]` returns `Ok`. -/
theorem upload_file_failure_routed_witness :
    upload_file
        ⟨some "u2", .error (.NotFound "file"), .ok 0, .ok (), fun _ s => .ok s,
          .ok (), .ok ⟨none⟩, .ok (), .ok (), .ok (), .ok ()⟩
        ⟨1, "noteF", SyncType.FileOutgoing, false, none⟩ =
      (.ok (), [.FindFile (.error (.NotFound "file"))] ++ [.HandleFailed (.ok ())],
        ⟨1, "noteF", SyncType.FileOutgoing, false,
          some (errText (.NotFound "file"))⟩) ∧
    FileEvent.DeleteRecord (.ok ()) ∉
      [FileEvent.FindFile (.error (.NotFound "file"))] ++
        [FileEvent.HandleFailed (.ok ())] ∧
    FileSyncOutgoing.run_sync
        [⟨1, "noteF", SyncType.FileOutgoing, false, none⟩]
        ⟨some "u2", .error (.NotFound "file"), .ok 0, .ok (), fun _ s => .ok s,
          .ok (), .ok ⟨none⟩, .ok (), .ok (), .ok (), .ok ()⟩ = .ok () :=
  have h := upload_file_failure_routed
    ⟨some "u2", .error (.NotFound "file"), .ok 0, .ok (), fun _ s => .ok s,
      .ok (), .ok ⟨none⟩, .ok (), .ok (), .ok (), .ok ()⟩
    "u2" ⟨1, "noteF", SyncType.FileOutgoing, false, none⟩
    (.NotFound "file") [.FindFile (.error (.NotFound "file"))] rfl rfl rfl
  ⟨h.1, h.2.1 (.ok ()), h.2.2 [⟨1, "noteF", SyncType.FileOutgoing, false, none⟩]
    (by decide)⟩

/- ------------------------------------------------------------------ -/
/- C7                                                                  -/
/- ------------------------------------------------------------------ -/

/-- C7: when the upload succeeds and the response carries sync ids, those ids
are passed to `SyncIncoming::ignore_on_next`; whatever that registration
returns (the theorem holds for any `ignore_result`, including an error), the
record is still deleted and `upload_file` still returns `Ok(())`. -/
theorem upload_file_ignore_swallowed (env : FileEnv) (uid : String)
    (sync : SyncRecord) (res : UploadRes) (ids : List Int) (tr : List FileEvent)
    (hu : env.user_id = some uid)
    (hup : uploadClosure env = (.ok res, tr))
    (hids : res.sync_ids = some ids)
    (hd : env.delete_result = .ok ())
    (hn : env.notify_result = .ok ()) :
    upload_file env sync =
      (.ok (), tr ++ [.IgnoreOnNext ids env.ignore_result,
                      .DeleteRecord (.ok ()), .Notify sync.item_id (.ok ())],
        sync) := by
  unfold upload_file
  rw [hu]
  show (match uploadClosure env with
        | (.error e, tr) => _
        | (.ok res, tr) => _) = _
  rw [hup]
  simp only [hids, hd, hn, List.append_assoc, List.cons_append,
    List.singleton_append, List.nil_append]

/-- C7 witness: a successful zero-byte upload whose response carries sync id
42, with the ignore registration failing: the id is still handed to
`ignore_on_next`, the record is still deleted, and the call still succeeds. -/
theorem upload_file_ignore_swallowed_witness :
    upload_file
        ⟨some "u7", .ok "p7", .ok 0, .ok (), fun _ s => .ok s, .ok (),
          .ok ⟨some [42]⟩, .error (.Msg "ignore failed"), .ok (), .ok (), .ok ()⟩
        ⟨5, "note7", SyncType.FileOutgoing, false, none⟩ =
      (.ok (),
        [.FindFile (.ok "p7"), .OpenFile (.ok 0), .ApiStart (.ok ()),
         .Flush (.ok ()), .ApiEnd (.ok ⟨some [42]⟩),
         .IgnoreOnNext [42] (.error (.Msg "ignore failed")),
         .DeleteRecord (.ok ()), .Notify "note7" (.ok ())],
        ⟨5, "note7", SyncType.FileOutgoing, false, none⟩) :=
  upload_file_ignore_swallowed
    ⟨some "u7", .ok "p7", .ok 0, .ok (), fun _ s => .ok s, .ok (),
      .ok ⟨some [42]⟩, .error (.Msg "ignore failed"), .ok (), .ok (), .ok ()⟩
    "u7" ⟨5, "note7", SyncType.FileOutgoing, false, none⟩
    ⟨some [42]⟩ [42]
    [.FindFile (.ok "p7"), .OpenFile (.ok 0), .ApiStart (.ok ()),
     .Flush (.ok ()), .ApiEnd (.ok ⟨some [42]⟩)]
    rfl
    ((uploadClosure_success
        ⟨some "u7", .ok "p7", .ok 0, .ok (), fun _ s => .ok s, .ok (),
          .ok ⟨some [42]⟩, .error (.Msg "ignore failed"), .ok (), .ok (), .ok ()⟩
        0 "p7" rfl rfl rfl (fun _ _ => rfl) rfl).trans
      (by simp [chunkSizes_zero]))
    rfl rfl rfl

/- ------------------------------------------------------------------ -/
/- C5                                                                  -/
/- ------------------------------------------------------------------ -/

/-- C5 counterexample: the claim says a failed UI notification does not make
the upload operation report a failure; on the code `messaging::ui_event(..)?`
propagates, so with every collaborator succeeding except the notification,
`upload_file` returns that very error. -/
theorem upload_notify_failure_counterexample :
    (upload_file
        ⟨some "u5", .ok "p5", .ok 0, .ok (), fun _ s => .ok s, .ok (),
          .ok ⟨none⟩, .ok (), .ok (), .error (.Msg "ui down"), .ok ()⟩
        ⟨3, "note5", SyncType.FileOutgoing, false, none⟩).1 =
      .error (.Msg "ui down") := by
  simp [upload_file, uploadClosure, chunkSizes_zero, writeChunks]

/-- C5 amended: on a successful upload the queue record is deleted and the
`sync:file:uploaded` UI event carrying the affected object id is emitted, but
the emission is not best-effort: `upload_file`'s result equals the UI
notification's result, so a notification failure is propagated out of the
call (after the record has already been deleted). -/
theorem upload_file_success_notify (env : FileEnv) (uid : String)
    (sync : SyncRecord) (res : UploadRes) (tr : List FileEvent)
    (hu : env.user_id = some uid)
    (hup : uploadClosure env = (.ok res, tr))
    (hd : env.delete_result = .ok ()) :
    upload_file env sync =
      (env.notify_result,
        tr ++ (match res.sync_ids with
          | some ids => [FileEvent.IgnoreOnNext ids env.ignore_result]
          | none => []) ++
          [.DeleteRecord (.ok ()), .Notify sync.item_id env.notify_result],
        sync) := by
  unfold upload_file
  rw [hu]
  show (match uploadClosure env with
        | (.error e, tr) => _
        | (.ok res, tr) => _) = _
  rw [hup]
  simp only [hd]
  cases hn : env.notify_result with
  | ok u =>
    cases u
    simp [hn, List.append_assoc]
  | error e =>
    simp [hn, List.append_assoc]

/-- C5 witness: a successful zero-byte upload with no returned sync ids and a
working UI channel: the record is deleted, the notification for "note6" is
emitted, and the call returns the notification's (successful) result. -/
theorem upload_file_success_notify_witness :
    upload_file
        ⟨some "u6", .ok "p6", .ok 0, .ok (), fun _ s => .ok s, .ok (),
          .ok ⟨none⟩, .ok (), .ok (), .ok (), .ok ()⟩
        ⟨4, "note6", SyncType.FileOutgoing, false, none⟩ =
      (.ok (),
        [.FindFile (.ok "p6"), .OpenFile (.ok 0), .ApiStart (.ok ()),
         .Flush (.ok ()), .ApiEnd (.ok ⟨none⟩),
         .DeleteRecord (.ok ()), .Notify "note6" (.ok ())],
        ⟨4, "note6", SyncType.FileOutgoing, false, none⟩) :=
  upload_file_success_notify
    ⟨some "u6", .ok "p6", .ok 0, .ok (), fun _ s => .ok s, .ok (),
      .ok ⟨none⟩, .ok (), .ok (), .ok (), .ok ()⟩
    "u6" ⟨4, "note6", SyncType.FileOutgoing, false, none⟩ ⟨none⟩
    [.FindFile (.ok "p6"), .OpenFile (.ok 0), .ApiStart (.ok ()),
     .Flush (.ok ()), .ApiEnd (.ok ⟨none⟩)]
    rfl
    ((uploadClosure_success
        ⟨some "u6", .ok "p6", .ok 0, .ok (), fun _ s => .ok s, .ok (),
          .ok ⟨none⟩, .ok (), .ok (), .ok (), .ok ()⟩
        0 "p6" rfl rfl rfl (fun _ _ => rfl) rfl).trans
      (by simp [chunkSizes_zero]))
    rfl
